import Mathlib

/-!
Verification of the quiz-buzzer server real-time session engine.

This file gives a shallow embedding, in Lean 4, of the parts of the
repository that the verified properties talk about:

* `server/services/game.service.js` — the in-memory game session engine
  (`recordAnswer`, `recordBuzz`, `evaluateBuzzes`, `validateBuzz`,
  `excludePlayer`), embedded as pure state-passing functions over a
  `Game` structure.
* the WebSocket server class (connection registry, message routing,
  MCQ answer handler, jingle streaming pipeline, time-sync echo),
  embedded as pure functions from the relevant slice of server state
  and an incoming message to the new state plus the list of messages
  sent out.
* `server/services/time.service.js` — the three-timestamp sync echo.

Conventions of the embedding:

* JavaScript `Map`s become association lists in insertion order
  (`Map.set` on a fresh key appends; `Map.delete` removes the key).
* JavaScript `Set`s become lists without duplicates in insertion order.
* Machine numbers: all timestamps, durations and points are `Int`
  (JS numbers used integrally in the source); JS truthiness of a
  number is `≠ 0`, of a string is `≠ ""`, of a nullable object is
  `Option.isSome`.
* The wall clock (`Date.now()`) is passed explicitly as a `now : Int`
  argument.
* Sends over the transport become constructors of `OutMsg` collected
  in a list, in the order the source emits them.
-/

/-! ## Data model: timestamps, questions, players, buzz entries -/

/-- The `timestamps` object sent by a buzzer with an answer or a buzz:
`{timestamp_local_action, timestamp_synced_action, calibrated_latency}`.
A missing/zero `timestamp_synced_action` is falsy in the source checks. -/
structure Timestamps where
  timestamp_local_action : Int
  timestamp_synced_action : Int
  calibrated_latency : Int
deriving Repr, DecidableEq

/-- A row of the `questions` table as used by the engine: its type tag
(`"MCQ"` or `"BUZZER"`), the index of the correct answer and the points.
A NULL `points` column is modelled as `0` (both are falsy under
`question.points || 10`). -/
structure Question where
  qtype : String
  correct_answer : Int
  points : Int
deriving Repr, DecidableEq

/-- Per-player cumulative statistics inside a game
(`registerPlayer` initialises `fastestResponseTime` to `Infinity`,
modelled as `none`). -/
structure Player where
  buzzerID : String
  name : String
  score : Int
  correctAnswers : Nat
  totalAnswers : Nat
  totalResponseTime : Int
  fastestResponseTime : Option Int
  slowestResponseTime : Int
deriving Repr, DecidableEq

/-- One recorded answer in `game.currentQuestionAnswers`. -/
structure AnswerRecord where
  answer : Int
  isCorrect : Bool
  points : Int
  responseTime : Int
  timestamp : Int
deriving Repr, DecidableEq

/-- One entry of `game.currentQuestionBuzzes`:
`{buzzerID, responseTime, timestamps, receivedAt, processed}`. -/
structure BuzzEntry where
  buzzerID : String
  responseTime : Int
  timestamps : Option Timestamps
  receivedAt : Int
  processed : Bool
deriving Repr, DecidableEq

/-- The per-game mutable state of `game.service.js` that the session
engine reads and writes.  `questionStartTime = 0` models the `null`
initial value (both falsy).  `buzzEvaluationTimer` is `true` while the
200 ms evaluation timer is armed. -/
structure Game where
  questionStartTime : Int
  currentQuestionAnswers : List (String × AnswerRecord)
  currentQuestionBuzzes : List BuzzEntry
  currentQuestionExcluded : List String
  currentQuestionWinner : Option String
  buzzerLocked : Bool
  buzzEvaluationTimer : Bool
  players : List (String × Player)
deriving Repr, DecidableEq

/-- Result object of `recordBuzz`.  The ignored branch of the source
returns only `{ignored, reason}`; the remaining fields are then the
defaults `false`/`0` (undefined is falsy in all downstream reads). -/
structure BuzzResult where
  ignored : Bool
  reason : String
  isPending : Bool
  responseTime : Int
  totalBuzzes : Nat
deriving Repr, DecidableEq

/-- Result object of `recordAnswer` / `validateBuzz`.  The
non-duplicate branch of the source leaves `duplicate` undefined
(falsy), modelled as `false`. -/
structure AnswerRes where
  isCorrect : Bool
  points : Int
  responseTime : Int
  duplicate : Bool
deriving Repr, DecidableEq

/-! ## Game session engine (`game.service.js`) -/

/-- The response-time computation shared by `recordAnswer` and
`recordBuzz` before any clamping: prefer
`timestamps.timestamp_synced_action - questionStartTime` when the
synced timestamp and the question start time are both truthy, fall
back to `now - questionStartTime` when only the start time is truthy,
else `0`. -/
def rawResponseTime (ts : Option Timestamps) (questionStartTime now : Int) : Int :=
  match ts with
  | some t =>
      if t.timestamp_synced_action ≠ 0 ∧ questionStartTime ≠ 0 then
        t.timestamp_synced_action - questionStartTime
      else if questionStartTime ≠ 0 then now - questionStartTime
      else 0
  | none =>
      if questionStartTime ≠ 0 then now - questionStartTime else 0

/-- `recordAnswer` response time: raw value clamped to `[0, 120000]`
(`if (responseTime < 0) responseTime = 0; if (responseTime > 120000)
responseTime = 120000`). -/
def answerResponseTime (ts : Option Timestamps) (questionStartTime now : Int) : Int :=
  let rt := rawResponseTime ts questionStartTime now
  let rt := if rt < 0 then 0 else rt
  if rt > 120000 then 120000 else rt

/-- `recordBuzz` response time: raw value clamped below at `0` only
(`if (responseTime < 0) responseTime = 0`; no upper clamp). -/
def buzzResponseTime (ts : Option Timestamps) (questionStartTime now : Int) : Int :=
  let rt := rawResponseTime ts questionStartTime now
  if rt < 0 then 0 else rt

/-- The player-statistics update performed identically in
`recordAnswer` and `validateBuzz` on `game.players.get(buzzerID)`. -/
def updatePlayerStats (p : Player) (isCorrect : Bool) (points responseTime : Int) : Player :=
  { p with
    score := p.score + points
    totalAnswers := p.totalAnswers + 1
    correctAnswers := p.correctAnswers + (if isCorrect then 1 else 0)
    totalResponseTime := p.totalResponseTime + responseTime
    fastestResponseTime :=
      match p.fastestResponseTime with
      | none => some responseTime
      | some f => if responseTime < f then some responseTime else some f
    slowestResponseTime :=
      if responseTime > p.slowestResponseTime then responseTime
      else p.slowestResponseTime }

/-- Update the matched player in the `players` map, leaving every other
entry alone (`game.players.get(buzzerID)` then in-place mutation). -/
def updatePlayers (players : List (String × Player)) (buzzerID : String)
    (isCorrect : Bool) (points responseTime : Int) : List (String × Player) :=
  players.map fun kv =>
    if kv.1 == buzzerID then (kv.1, updatePlayerStats kv.2 isCorrect points responseTime)
    else kv

/-- `recordAnswer(gameId, questionId, buzzerID, answer, timestamps)`.
The question row is passed as `question : Option Question` (the
database lookup is an external collaborator); `none` makes the source
throw `Question not found`, modelled as `Except.error`.  The database
result insert is persistence-only and carries no engine state. -/
def recordAnswer (g : Game) (question : Option Question) (buzzerID : String)
    (answer : Int) (ts : Option Timestamps) (now : Int) :
    Except String (Game × AnswerRes) :=
  if (g.currentQuestionAnswers.find? fun kv => kv.1 == buzzerID).isSome then
    Except.ok (g, ⟨false, 0, 0, true⟩)
  else
    match question with
    | none => Except.error "Question not found"
    | some q =>
      let isCorrect :=
        if q.qtype = "MCQ" then answer == q.correct_answer
        else if q.qtype = "BUZZER" then g.currentQuestionAnswers.length == 0
        else false
      let points := if isCorrect then (if q.points ≠ 0 then q.points else 10) else 0
      let responseTime := answerResponseTime ts g.questionStartTime now
      let record : AnswerRecord := ⟨answer, isCorrect, points, responseTime, now⟩
      let g' := { g with
        currentQuestionAnswers := g.currentQuestionAnswers ++ [(buzzerID, record)]
        players := updatePlayers g.players buzzerID isCorrect points responseTime }
      Except.ok (g', ⟨isCorrect, points, responseTime, false⟩)

/-- Reasons returned by the three guard branches of `recordBuzz`. -/
def reasonExcluded : String := "Joueur exclu pour cette question"

def reasonAlreadyBuzzed : String := "Déjà buzzé"

def reasonLocked : String := "Buzzers verrouillés"

/-- `recordBuzz(gameId, questionId, buzzerID, timestamps)`: the three
guards (excluded player, unprocessed duplicate buzz, buzzers locked)
each return `{ignored:true, reason}` without touching the game; the
accept path appends one unprocessed entry and arms the 200 ms
evaluation timer when it is not already armed. -/
def recordBuzz (g : Game) (buzzerID : String) (ts : Option Timestamps) (now : Int) :
    Game × BuzzResult :=
  if g.currentQuestionExcluded.contains buzzerID then
    (g, ⟨true, reasonExcluded, false, 0, 0⟩)
  else if (g.currentQuestionBuzzes.find? fun b => b.buzzerID == buzzerID && !b.processed).isSome then
    (g, ⟨true, reasonAlreadyBuzzed, false, 0, 0⟩)
  else if g.buzzerLocked then
    (g, ⟨true, reasonLocked, false, 0, 0⟩)
  else
    let responseTime := buzzResponseTime ts g.questionStartTime now
    let entry : BuzzEntry := ⟨buzzerID, responseTime, ts, now, false⟩
    let buzzes := g.currentQuestionBuzzes ++ [entry]
    let g' := { g with
      currentQuestionBuzzes := buzzes
      buzzEvaluationTimer := true }
    (g', ⟨false, "", true, responseTime, buzzes.length⟩)

/-- The eligibility predicate of `evaluateBuzzes`:
`!b.processed && !game.currentQuestionExcluded.has(b.buzzerID)`. -/
def eligible (excluded : List String) (b : BuzzEntry) : Bool :=
  !b.processed && !(excluded.contains b.buzzerID)

/-- The pending buzzes collected by `evaluateBuzzes`. -/
def pendingOf (g : Game) : List BuzzEntry :=
  g.currentQuestionBuzzes.filter (eligible g.currentQuestionExcluded)

/-- One comparison step of the stable ascending sort by
`responseTime`: keep the current candidate unless the next entry is
strictly faster. -/
def pickFaster (w c : BuzzEntry) : BuzzEntry :=
  if c.responseTime < w.responseTime then c else w

/-- `pending.sort(ascending by responseTime)[0]` under the stable-sort
semantics of `Array.prototype.sort`: the first entry, in arrival
order, attaining the minimal `responseTime`. -/
def selectWinner : List BuzzEntry → Option BuzzEntry
  | [] => none
  | b :: bs => some (bs.foldl pickFaster b)

/-- `evaluateBuzzes(gameId, questionId)`, fired by the 200 ms timer.
Returns the new game state and the winner entry handed to the
`onBuzzWinner` callback (`none` when the evaluation exits early).
The source marks the winner and every other pending entry
`processed = true` through the shared references inside
`currentQuestionBuzzes`; the callback receives the winner in that
already-processed state. -/
def evaluateBuzzes (g : Game) : Game × Option BuzzEntry :=
  if g.buzzerLocked then (g, none)
  else
    match selectWinner (pendingOf g) with
    | none => (g, none)
    | some w =>
      let buzzes := g.currentQuestionBuzzes.map fun b =>
        if eligible g.currentQuestionExcluded b then { b with processed := true } else b
      ({ g with
          currentQuestionBuzzes := buzzes
          currentQuestionWinner := some w.buzzerID
          buzzerLocked := true },
        some { w with processed := true })

/-- `validateBuzz(gameId, questionId, buzzerID, isCorrect)`: computes
points from the (optional) question row (`question.points || 10`,
default `10` when the row is missing), reads the response time from
the first recorded buzz of `buzzerID`, persists a result row
(external), and updates the matched player statistics.  No other game
field is written. -/
def validateBuzz (g : Game) (question : Option Question) (buzzerID : String)
    (isCorrect : Bool) : Game × AnswerRes :=
  let points : Int :=
    if isCorrect then
      match question with
      | some q => if q.points ≠ 0 then q.points else 10
      | none => 10
    else 0
  let buzzEntry := g.currentQuestionBuzzes.find? fun b => b.buzzerID == buzzerID
  let responseTime := match buzzEntry with
    | some b => b.responseTime
    | none => 0
  ({ g with players := updatePlayers g.players buzzerID isCorrect points responseTime },
    ⟨isCorrect, points, responseTime, false⟩)

/-- `excludePlayer(gameId, questionId, buzzerID)`: adds the player to
the per-question exclusion set, clears `buzzerLocked` and
`currentQuestionWinner`. -/
def excludePlayer (g : Game) (buzzerID : String) : Game :=
  { g with
    currentQuestionExcluded :=
      if g.currentQuestionExcluded.contains buzzerID then g.currentQuestionExcluded
      else g.currentQuestionExcluded ++ [buzzerID]
    buzzerLocked := false
    currentQuestionWinner := none }

/-- The per-question reset performed by `getCurrentQuestion` (lines
140–148 of `game.service.js`): stamp `questionStartTime`, clear the
answer map, the buzz list, the exclusion set, the winner, the lock and
the evaluation timer. -/
def resetQuestionState (g : Game) (now : Int) : Game :=
  { g with
    questionStartTime := now
    currentQuestionAnswers := []
    currentQuestionBuzzes := []
    currentQuestionExcluded := []
    currentQuestionWinner := none
    buzzerLocked := false
    buzzEvaluationTimer := false }

/-! ## WebSocket server (connection registry, routing, handlers) -/

/-- Messages the server sends out (text frames to the console
("Angular") or to one buzzer, close frames, binary jingle chunks).
Each constructor carries the payload fields the source actually
writes. -/
inductive OutMsg where
  | timeSyncRes (T1 T2 T3 : Int)
  | pong (tsend treceive : Int)
  | connectionAck (buzzerID : String) (playerNumber : Nat)
  | connectionRejected (reason : String)
  | closeFrame (code : Nat) (reason : String)
  | buzzerConnected (buzzerID : String) (totalBuzzers : Nat)
  | buzzerDisconnected (buzzerID : String) (totalBuzzers : Nat)
  | answerResult (buzzerID : String) (isCorrect : Bool) (points responseTime : Int)
  | answerReceived (buzzerID : String) (isCorrect : Bool) (points responseTime : Int)
  | jingleError (buzzerID : String) (jingleId : Nat) (error : String)
  | jingleStart (buzzerID : String) (jingleId : Nat) (fileSize : Nat)
  | jingleStarted (buzzerID : String) (jingleId : Nat) (fileSize : Nat)
  | binaryFrame (buzzerID : String) (bytes : List Nat)
  | jingleEnd (buzzerID : String) (jingleId totalChunks fileSize : Nat)
  | jingleCompleted (buzzerID : String) (jingleId totalChunks : Nat)
deriving Repr, DecidableEq

/-- Incoming client messages, restricted to the types the embedded
handlers inspect; `other` stands for any remaining type string. -/
inductive ClientMsg where
  | timeSyncReq (T1 : Int)
  | ping (tsend : Int)
  | other (type : String)
deriving Repr, DecidableEq

/-- `handlePreIdentificationMessage`: before identification only
`TIME_SYNC_REQ` and `PING` are answered; anything else is logged and
dropped. -/
def handlePreIdentificationMessage (now : Int) : ClientMsg → List OutMsg
  | .timeSyncReq t1 => [.timeSyncRes t1 now now]
  | .ping t => [.pong t now]
  | .other _ => []

/-- The `TIME_SYNC_REQ` / `PING` branches of `handleBuzzerMessage`
(the remaining branches dispatch to the game handlers embedded
separately and send nothing themselves). -/
def handleBuzzerSyncMessage (now : Int) : ClientMsg → List OutMsg
  | .timeSyncReq t1 => [.timeSyncRes t1 now now]
  | .ping t => [.pong t now]
  | .other _ => []

/-- Reply object of `time.service.js handleTimeSyncRequest`. -/
structure TimeSyncRes where
  T1 : Int
  T2 : Int
  T3 : Int
  serverTime : Int
deriving Repr, DecidableEq

/-- `timeService.handleTimeSyncRequest(clientTimestamp)`: echo `T1`,
stamp `T2` and `T3` with the server clock. -/
def handleTimeSyncRequest (clientTimestamp now : Int) : TimeSyncRes :=
  ⟨clientTimestamp, now, now, now⟩

/-- Registry entry for one connected buzzer
(`buzzerClients.set(buzzerID, {ws, info})`; the transport handle is
identified by the `wsId` tag of its owner). -/
structure BuzzerInfo where
  wsId : Nat
  name : String
  macAddress : String
  connectedAt : Int
  playerNumber : Nat
deriving Repr, DecidableEq

/-- The per-transport fields the router writes on a raw socket:
`ws._identified`, `ws._clientType`, `ws._buzzerID` (absent modelled as
`none`). `wsId` tags the transport identity. -/
structure WsState where
  wsId : Nat
  identified : Bool
  clientType : Option String
  buzzerID : Option String
deriving Repr, DecidableEq

/-- A fresh transport after `connection`: unidentified, no class, no
buzzer id. -/
def freshWs (wsId : Nat) : WsState :=
  ⟨wsId, false, none, none⟩

/-- `handleBuzzerRegistration(ws, message)` on the registry
(an association list keyed by `buzzerID` in insertion order):
a duplicate id is rejected (`CONNECTION_REJECTED`, close 4002);
otherwise the buzzer is inserted with `playerNumber = size + 1`,
acknowledged, and announced to the console. -/
def handleBuzzerRegistration (reg : List (String × BuzzerInfo)) (ws : WsState)
    (buzzerID macAddress : String) (now : Int) :
    List (String × BuzzerInfo) × List OutMsg :=
  if (reg.find? fun kv => kv.1 == buzzerID).isSome then
    (reg, [.connectionRejected "Buzzer ID already connected",
           .closeFrame 4002 "Duplicate buzzer ID"])
  else
    let playerNumber := reg.length + 1
    let info : BuzzerInfo := ⟨ws.wsId, "En attente de nom", macAddress, now, playerNumber⟩
    let reg' := reg ++ [(buzzerID, info)]
    (reg', [.connectionAck buzzerID playerNumber,
            .buzzerConnected buzzerID reg'.length])

/-- The `BUZZER_REGISTER` case of `routeMessage` on an unidentified
transport: set `ws._identified`, `ws._clientType = 'buzzer'` and
`ws._buzzerID` (before any duplicate check), then run
`handleBuzzerRegistration`. -/
def routeBuzzerRegister (reg : List (String × BuzzerInfo)) (ws : WsState)
    (buzzerID macAddress : String) (now : Int) :
    List (String × BuzzerInfo) × WsState × List OutMsg :=
  let ws' := { ws with identified := true, clientType := some "buzzer",
                       buzzerID := some buzzerID }
  let (reg', out) := handleBuzzerRegistration reg ws' buzzerID macAddress now
  (reg', ws', out)

/-- `handleDisconnection(ws, code, reason)`: a closing console clears
the console slot; a closing transport tagged as a buzzer with a truthy
`_buzzerID` deletes that id from the registry and announces
`BUZZER_DISCONNECTED` with the new size. -/
def handleDisconnection (reg : List (String × BuzzerInfo)) (ws : WsState) :
    List (String × BuzzerInfo) × List OutMsg :=
  if ws.clientType == some "angular" then (reg, [])
  else
    match ws.clientType, ws.buzzerID with
    | some "buzzer", some id =>
        if id ≠ "" then
          let reg' := reg.filter fun kv => kv.1 ≠ id
          (reg', [.buzzerDisconnected id reg'.length])
        else (reg, [])
    | _, _ => (reg, [])

/-- `handleMCQAnswer(buzzerID, message)`: run `recordAnswer` (a thrown
error is caught and replaced by the zero result), then
unconditionally send `ANSWER_RESULT` to the buzzer and
`ANSWER_RECEIVED` to the console. -/
def handleMCQAnswer (g : Game) (question : Option Question) (buzzerID : String)
    (answer : Int) (ts : Option Timestamps) (now : Int) : Game × List OutMsg :=
  let st := match recordAnswer g question buzzerID answer ts now with
    | .ok (g', r) => (g', r)
    | .error _ => (g, (⟨false, 0, 0, false⟩ : AnswerRes))
  (st.1,
    [.answerResult buzzerID st.2.isCorrect st.2.points st.2.responseTime,
     .answerReceived buzzerID st.2.isCorrect st.2.points st.2.responseTime])

/-! ## POSIX path model for the jingle path guard

`path.normalize`, `path.resolve` and `path.isAbsolute` from Node are
modelled on paths split into segments: a `JsPath` is an absolute flag
plus the raw list of segments between slashes (so `"../a//b"` is
relative with segments `["..", "a", "", "b"]`).  Normalisation is
the usual stack computation: `"."` and empty segments vanish, `".."`
pops a preceding name, leading `".."`s of a relative path survive, and
`".."` at the root of an absolute path vanishes. -/

/-- A Node path split at `/`. -/
structure JsPath where
  absolute : Bool
  segs : List String
deriving Repr, DecidableEq

/-- One step of relative normalisation on a reversed segment stack
(top of stack first). -/
def relStep (acc : List String) (seg : String) : List String :=
  if seg = "." ∨ seg = "" then acc
  else if seg = ".." then
    if acc.head? = some ".." ∨ acc = [] then ".." :: acc else acc.tail
  else seg :: acc

/-- One step of absolute normalisation on a reversed segment stack:
`".."` at the root is dropped. -/
def absStep (acc : List String) (seg : String) : List String :=
  if seg = "." ∨ seg = "" then acc
  else if seg = ".." then acc.tail
  else seg :: acc

/-- `path.normalize` on a relative segment list. -/
def normalizeRelSegs (segs : List String) : List String :=
  (segs.foldl relStep []).reverse

/-- Normalised absolute segment list (used for resolution results). -/
def normalizeAbsSegs (segs : List String) : List String :=
  (segs.foldl absStep []).reverse

/-- `path.normalize(p)`. -/
def pathNormalize (p : JsPath) : JsPath :=
  if p.absolute then ⟨true, normalizeAbsSegs p.segs⟩
  else ⟨false, normalizeRelSegs p.segs⟩

/-- `path.resolve(p)` against the current working directory `cwd`
(an absolute, already-normalised segment list): an absolute path is
normalised in place, a relative path is joined onto `cwd` first. -/
def pathResolve (cwd : List String) (p : JsPath) : List String :=
  if p.absolute then normalizeAbsSegs p.segs
  else normalizeAbsSegs (cwd ++ p.segs)

/-- The path-traversal guard of `handleJinglePlay` (lines 586–597):
`!path.isAbsolute(file_path) && path.resolve(file_path) !==
path.resolve(path.normalize(file_path))`. -/
def jinglePathGuard (cwd : List String) (filePath : JsPath) : Bool :=
  !filePath.absolute && !(pathResolve cwd filePath == pathResolve cwd (pathNormalize filePath))

/-! ## Jingle streaming pipeline -/

/-- A row of the `jingles` table as used by `handleJinglePlay`. -/
structure Jingle where
  name : String
  file_path : JsPath
deriving Repr, DecidableEq

/-- `CHUNK_SIZE = 4096` bytes per chunk. -/
def CHUNK_SIZE : Nat := 4096

/-- The successive `data` chunks delivered by
`fs.createReadStream(path, {highWaterMark: 4096})`: the file bytes cut
into maximal runs of 4096. -/
def chunksOf : List Nat → List (List Nat)
  | [] => []
  | l@(_ :: _) => l.take CHUNK_SIZE :: chunksOf (l.drop CHUNK_SIZE)
termination_by l => l.length
decreasing_by
  simp_all [List.length_drop, CHUNK_SIZE]
  omega

/-- `Buffer.writeUInt32LE`: the four little-endian bytes of a uint32. -/
def le32 (n : Nat) : List Nat :=
  [n % 256, n / 256 % 256, n / 65536 % 256, n / 16777216 % 256]

/-- The binary packet for chunk `i`: an 8-byte header
`[jingleId LE][chunkIndex LE]` followed by the chunk bytes. -/
def jinglePacket (jingleId i : Nat) (chunk : List Nat) : List Nat :=
  le32 jingleId ++ le32 i ++ chunk

/-- All binary frames of one jingle stream, in send order. -/
def jingleFrames (jingleId : Nat) (bytes : List Nat) : List (List Nat) :=
  (chunksOf bytes).enum.map fun p => jinglePacket jingleId p.1 p.2

/-- `handleJinglePlay(message)` for a transport that stays open: the
guards in source order (already streaming, buzzer absent, jingle row
missing, path guard, file missing), then `JINGLE_START`,
`JINGLE_STARTED`, the binary frames, and on stream end `JINGLE_END`
plus `JINGLE_COMPLETED`.  `activeJingleStreams` gains `buzzerID` for
the duration of the read and is returned as it stands after the
handler (the end handler removes it again).  The file content is
passed as `fileBytes` (`none` = `fs.existsSync` false). -/
def handleJinglePlay (active : List String) (buzzerConnected : Bool)
    (jingle : Option Jingle) (fileBytes : Option (List Nat)) (cwd : List String)
    (buzzerID : String) (jingleId : Nat) : List String × List OutMsg :=
  if active.contains buzzerID then
    (active, [.jingleError buzzerID jingleId "Buzzer is already playing a jingle"])
  else if !buzzerConnected then
    (active, [.jingleError buzzerID jingleId "Buzzer not connected"])
  else
    match jingle with
    | none => (active, [.jingleError buzzerID jingleId "Jingle not found"])
    | some j =>
      if jinglePathGuard cwd j.file_path then
        (active, [.jingleError buzzerID jingleId "Invalid file path"])
      else
        match fileBytes with
        | none => (active, [.jingleError buzzerID jingleId "File not found"])
        | some bytes =>
          let fileSize := bytes.length
          let frames := jingleFrames jingleId bytes
          (active,
            [.jingleStart buzzerID jingleId fileSize,
             .jingleStarted buzzerID jingleId fileSize]
            ++ frames.map (.binaryFrame buzzerID ·)
            ++ [.jingleEnd buzzerID jingleId frames.length fileSize,
                .jingleCompleted buzzerID jingleId frames.length])

/-! ## Helper lemmas -/

lemma foldl_pickFaster_mem (bs : List BuzzEntry) :
    ∀ b : BuzzEntry, bs.foldl pickFaster b ∈ b :: bs := by
  induction bs with
  | nil => intro b; simp
  | cons c cs ih =>
      intro b
      have h := ih (pickFaster b c)
      by_cases hlt : c.responseTime < b.responseTime
      · simp only [pickFaster, if_pos hlt] at h
        simp only [List.foldl_cons, pickFaster, if_pos hlt]
        rcases List.mem_cons.mp h with h1 | h1 <;> simp [h1]
      · simp only [pickFaster, if_neg hlt] at h
        simp only [List.foldl_cons, pickFaster, if_neg hlt]
        rcases List.mem_cons.mp h with h1 | h1 <;> simp [h1]

lemma foldl_pickFaster_le (bs : List BuzzEntry) :
    ∀ b : BuzzEntry, ∀ x ∈ b :: bs,
      (bs.foldl pickFaster b).responseTime ≤ x.responseTime := by
  induction bs with
  | nil =>
      intro b x hx
      rcases List.mem_cons.mp hx with h | h
      · subst h; simp
      · simp at h
  | cons c cs ih =>
      intro b x hx
      have hhead := ih (pickFaster b c) (pickFaster b c) (List.mem_cons_self _ _)
      have hb : (pickFaster b c).responseTime ≤ b.responseTime := by
        unfold pickFaster; split <;> omega
      have hc : (pickFaster b c).responseTime ≤ c.responseTime := by
        unfold pickFaster; split <;> omega
      have hmain : ((c :: cs).foldl pickFaster b).responseTime
          ≤ (pickFaster b c).responseTime := by simpa using hhead
      rcases List.mem_cons.mp hx with h | h
      · rw [h]; exact le_trans hmain hb
      · rcases List.mem_cons.mp h with h1 | h1
        · rw [h1]; exact le_trans hmain hc
        · simpa using ih (pickFaster b c) x (List.mem_cons_of_mem _ h1)

lemma selectWinner_mem {l : List BuzzEntry} {w : BuzzEntry}
    (h : selectWinner l = some w) : w ∈ l := by
  cases l with
  | nil => simp [selectWinner] at h
  | cons b bs =>
      simp only [selectWinner, Option.some_inj] at h
      subst h
      exact foldl_pickFaster_mem bs b

lemma selectWinner_le {l : List BuzzEntry} {w : BuzzEntry}
    (h : selectWinner l = some w) : ∀ x ∈ l, w.responseTime ≤ x.responseTime := by
  cases l with
  | nil => simp [selectWinner] at h
  | cons b bs =>
      simp only [selectWinner, Option.some_inj] at h
      subst h
      exact foldl_pickFaster_le bs b

/-! ## Claim theorems -/

/-- C1. `evaluateBuzzes` on an unlocked game with at least one
unprocessed, non-excluded buzz elects as winner an eligible entry of
minimal `responseTime`, marks every eligible entry processed, sets
`currentQuestionWinner` to the winner id and `buzzerLocked` to true,
and fires the `onBuzzWinner` callback with that winner; the elected
response time is independent of the arrival order of the buzzes; when
the game is already locked or no eligible entry exists it changes
nothing and fires no callback. -/
theorem evaluateBuzzes_correct (g : Game) :
    (g.buzzerLocked = true → evaluateBuzzes g = (g, none)) ∧
    (pendingOf g = [] → evaluateBuzzes g = (g, none)) ∧
    (g.buzzerLocked = false → pendingOf g ≠ [] →
      ∃ w, w ∈ pendingOf g ∧
        (∀ b ∈ pendingOf g, w.responseTime ≤ b.responseTime) ∧
        (evaluateBuzzes g).2 = some { w with processed := true } ∧
        (evaluateBuzzes g).1.currentQuestionWinner = some w.buzzerID ∧
        (evaluateBuzzes g).1.buzzerLocked = true ∧
        (evaluateBuzzes g).1.currentQuestionBuzzes
          = g.currentQuestionBuzzes.map (fun b =>
              if eligible g.currentQuestionExcluded b then { b with processed := true }
              else b)) ∧
    (∀ g2 : Game, g2.buzzerLocked = g.buzzerLocked →
      g2.currentQuestionExcluded = g.currentQuestionExcluded →
      g2.currentQuestionBuzzes.Perm g.currentQuestionBuzzes →
      ((evaluateBuzzes g2).2).map BuzzEntry.responseTime
        = ((evaluateBuzzes g).2).map BuzzEntry.responseTime) := by
  refine ⟨?_, ?_, ?_, ?_⟩
  · intro h
    simp [evaluateBuzzes, h]
  · intro h
    by_cases hl : g.buzzerLocked <;> simp [evaluateBuzzes, hl, h, selectWinner]
  · intro hl hne
    obtain ⟨b, bs, hp⟩ : ∃ b bs, pendingOf g = b :: bs := by
      cases hpp : pendingOf g with
      | nil => exact absurd hpp hne
      | cons b bs => exact ⟨b, bs, rfl⟩
    have hw : selectWinner (pendingOf g) = some (bs.foldl pickFaster b) := by
      rw [hp]; rfl
    refine ⟨bs.foldl pickFaster b, ?_, ?_, ?_, ?_, ?_, ?_⟩
    · exact selectWinner_mem hw
    · exact selectWinner_le hw
    · simp [evaluateBuzzes, hl, hw]
    · simp [evaluateBuzzes, hl, hw]
    · simp [evaluateBuzzes, hl, hw]
    · simp [evaluateBuzzes, hl, hw]
  · intro g2 hl2 hexc hperm
    have hpend : (pendingOf g2).Perm (pendingOf g) := by
      unfold pendingOf
      rw [hexc]
      exact hperm.filter _
    by_cases hl : g.buzzerLocked
    · simp [evaluateBuzzes, hl, hl2 ▸ hl]
    · have hl2f : g2.buzzerLocked = false := by
        rw [hl2]; exact Bool.not_eq_true _ ▸ (by simpa using hl)
      have hlf : g.buzzerLocked = false := by simpa using hl
      cases hp : pendingOf g with
      | nil =>
          have hp2 : pendingOf g2 = [] := List.Perm.eq_nil (hp ▸ hpend)
          simp [evaluateBuzzes, hlf, hl2f, hp, hp2, selectWinner]
      | cons b bs =>
          obtain ⟨b2, bs2, hp2⟩ : ∃ b2 bs2, pendingOf g2 = b2 :: bs2 := by
            cases hpp : pendingOf g2 with
            | nil =>
                rw [hpp, hp] at hpend
                exact absurd hpend.symm (List.cons_ne_nil b bs ∘ List.Perm.eq_nil)
            | cons x xs => exact ⟨x, xs, rfl⟩
          have hw : selectWinner (pendingOf g) = some (bs.foldl pickFaster b) := by
            rw [hp]; rfl
          have hw2 : selectWinner (pendingOf g2) = some (bs2.foldl pickFaster b2) := by
            rw [hp2]; rfl
          have hmem : bs.foldl pickFaster b ∈ pendingOf g := selectWinner_mem hw
          have hmem2 : bs2.foldl pickFaster b2 ∈ pendingOf g2 := selectWinner_mem hw2
          have hle : (bs.foldl pickFaster b).responseTime
              ≤ (bs2.foldl pickFaster b2).responseTime :=
            selectWinner_le hw _ (hpend.mem_iff.mp hmem2)
          have hge : (bs2.foldl pickFaster b2).responseTime
              ≤ (bs.foldl pickFaster b).responseTime :=
            selectWinner_le hw2 _ (hpend.mem_iff.mpr hmem)
          have heq : (bs2.foldl pickFaster b2).responseTime
              = (bs.foldl pickFaster b).responseTime := le_antisymm hge hle
          simp [evaluateBuzzes, hlf, hl2f, hw, hw2, heq]

/-- Concrete game used to witness the hypotheses of
`evaluateBuzzes_correct`: question started at 1000, three unprocessed
buzzes from B1/B2/B3 with response times 520/505/540 (spec scenario
S2), nobody excluded, not locked. -/
def gameS2 : Game :=
  ⟨1000, [],
   [⟨"B1", 520, none, 1520, false⟩, ⟨"B2", 505, none, 1505, false⟩,
    ⟨"B3", 540, none, 1540, false⟩],
   [], none, false, true, []⟩

/-- Witness for `evaluateBuzzes_correct` at `gameS2`. -/
theorem evaluateBuzzes_correct_witness :
    ∃ w, w ∈ pendingOf gameS2 ∧
      (∀ b ∈ pendingOf gameS2, w.responseTime ≤ b.responseTime) ∧
      (evaluateBuzzes gameS2).2 = some { w with processed := true } ∧
      (evaluateBuzzes gameS2).1.currentQuestionWinner = some w.buzzerID ∧
      (evaluateBuzzes gameS2).1.buzzerLocked = true ∧
      (evaluateBuzzes gameS2).1.currentQuestionBuzzes
        = gameS2.currentQuestionBuzzes.map (fun b =>
            if eligible gameS2.currentQuestionExcluded b then { b with processed := true }
            else b) :=
  (evaluateBuzzes_correct gameS2).2.2.1 rfl (by decide)

/-- C3. `recordBuzz` on an existing game: an excluded buzzer, a buzzer
with an unprocessed pending entry, and a locked game are each ignored
with the corresponding reason and leave the game unchanged; otherwise
exactly one unprocessed entry for the buzzer is appended to the
pending buzzes and the call returns
`{ignored:false, isPending:true}` with the computed response time. -/
theorem recordBuzz_correct (g : Game) (id : String) (ts : Option Timestamps) (now : Int) :
    (id ∈ g.currentQuestionExcluded →
      recordBuzz g id ts now = (g, ⟨true, reasonExcluded, false, 0, 0⟩)) ∧
    (id ∉ g.currentQuestionExcluded →
     (∃ b ∈ g.currentQuestionBuzzes, b.buzzerID = id ∧ b.processed = false) →
      recordBuzz g id ts now = (g, ⟨true, reasonAlreadyBuzzed, false, 0, 0⟩)) ∧
    (id ∉ g.currentQuestionExcluded →
     ¬(∃ b ∈ g.currentQuestionBuzzes, b.buzzerID = id ∧ b.processed = false) →
     g.buzzerLocked = true →
      recordBuzz g id ts now = (g, ⟨true, reasonLocked, false, 0, 0⟩)) ∧
    (id ∉ g.currentQuestionExcluded →
     ¬(∃ b ∈ g.currentQuestionBuzzes, b.buzzerID = id ∧ b.processed = false) →
     g.buzzerLocked = false →
      recordBuzz g id ts now =
        ({ g with
            currentQuestionBuzzes := g.currentQuestionBuzzes
              ++ [⟨id, buzzResponseTime ts g.questionStartTime now, ts, now, false⟩]
            buzzEvaluationTimer := true },
         ⟨false, "", true, buzzResponseTime ts g.questionStartTime now,
          g.currentQuestionBuzzes.length + 1⟩)) := by
  refine ⟨?_, ?_, ?_, ?_⟩
  · intro h1
    simp [recordBuzz, h1]
  · intro h1 h2
    simp [recordBuzz, h1, h2]
  · intro h1 h2 h3
    simp [recordBuzz, h1, h2, h3]
  · intro h1 h2 h3
    simp [recordBuzz, h1, h2, h3]

/-- Concrete game used to witness `recordBuzz_correct`: B1 already
buzzed (unprocessed); B2 is free to buzz. -/
def gameC3 : Game :=
  ⟨1000, [], [⟨"B1", 300, none, 1300, false⟩], ["B9"], none, false, true, []⟩

/-- Witness for `recordBuzz_correct` at `gameC3` (accept path for B2). -/
theorem recordBuzz_correct_witness :
    recordBuzz gameC3 "B2" none 1500 =
      ({ gameC3 with
          currentQuestionBuzzes := gameC3.currentQuestionBuzzes
            ++ [⟨"B2", 500, none, 1500, false⟩]
          buzzEvaluationTimer := true },
       ⟨false, "", true, 500, 2⟩) := by
  have h := (recordBuzz_correct gameC3 "B2" none 1500).2.2.2 (by decide) (by decide) (by decide)
  rw [h]
  decide

/-- C5. The response time computed by `recordAnswer` always lies in
`[0, 120000]` ms, while the one computed by `recordBuzz` is only
clamped below at 0: it is always nonnegative and exceeds any given
bound for suitable inputs. -/
theorem responseTime_clamping :
    (∀ ts questionStartTime now, 0 ≤ answerResponseTime ts questionStartTime now
        ∧ answerResponseTime ts questionStartTime now ≤ 120000) ∧
    (∀ ts questionStartTime now, 0 ≤ buzzResponseTime ts questionStartTime now) ∧
    (∀ M : Int, ∃ ts questionStartTime now,
        buzzResponseTime ts questionStartTime now > M) := by
  refine ⟨?_, ?_, ?_⟩
  · intro ts qst now
    simp only [answerResponseTime]
    constructor <;> (split_ifs <;> omega)
  · intro ts qst now
    simp only [buzzResponseTime]
    split_ifs <;> omega
  · intro M
    refine ⟨some ⟨0, (M.natAbs : Int) + 2, 0⟩, 1, 0, ?_⟩
    have h3 : M ≤ (M.natAbs : Int) := Int.le_natAbs
    simp only [buzzResponseTime, rawResponseTime]
    split_ifs <;> omega

/-- C9. A `TIME_SYNC_REQ` carrying `T1`, whether received before
identification or from an identified buzzer, is answered by exactly
one `TIME_SYNC_RES` echoing `T1` unchanged with server times `T2` and
`T3`; the time service reply object echoes `T1` the same way. -/
theorem timeSyncReq_echoes_T1 (t1 now : Int) :
    handlePreIdentificationMessage now (.timeSyncReq t1) = [.timeSyncRes t1 now now] ∧
    handleBuzzerSyncMessage now (.timeSyncReq t1) = [.timeSyncRes t1 now now] ∧
    handleTimeSyncRequest t1 now = ⟨t1, now, now, now⟩ :=
  ⟨rfl, rfl, rfl⟩

/-- C10. `validateBuzz` leaves `buzzerLocked`, `currentQuestionWinner`,
the exclusion set, the pending buzzes (including their `processed`
flags), the answer map, the question start time and the timer flag
unchanged, for either value of `isCorrect`; the only field it writes
is the `players` map, where exactly the entries matching the given
buzzer id are replaced by their cumulative-statistics update. -/
theorem validateBuzz_frame (g : Game) (q : Option Question) (id : String) (c : Bool) :
    ((validateBuzz g q id c).1).buzzerLocked = g.buzzerLocked ∧
    ((validateBuzz g q id c).1).currentQuestionWinner = g.currentQuestionWinner ∧
    ((validateBuzz g q id c).1).currentQuestionExcluded = g.currentQuestionExcluded ∧
    ((validateBuzz g q id c).1).currentQuestionBuzzes = g.currentQuestionBuzzes ∧
    ((validateBuzz g q id c).1).currentQuestionAnswers = g.currentQuestionAnswers ∧
    ((validateBuzz g q id c).1).questionStartTime = g.questionStartTime ∧
    ((validateBuzz g q id c).1).buzzEvaluationTimer = g.buzzEvaluationTimer ∧
    ∃ points responseTime,
      ((validateBuzz g q id c).1).players
        = g.players.map fun kv =>
            if kv.1 == id then (kv.1, updatePlayerStats kv.2 c points responseTime)
            else kv := by
  refine ⟨rfl, rfl, rfl, rfl, rfl, rfl, rfl, ?_⟩
  refine ⟨_, _, rfl⟩

/-- Concrete game for the duplicate-answer scenario: B1 already has an
entry in the current answer map. -/
def gameC4 : Game :=
  ⟨1000, [("B1", ⟨2, true, 10, 500, 1500⟩)], [], [], none, false, false,
   [("B1", ⟨"B1", "Alice", 10, 1, 1, 500, some 500, 500⟩)]⟩

/-- The MCQ question used in the duplicate-answer scenario. -/
def questionC4 : Question := ⟨"MCQ", 2, 10⟩

/-- C4 counterexample. A duplicate answer is recognised by
`recordAnswer` (result `{duplicate:true, isCorrect:false, points:0,
responseTime:0}`, game state unchanged), yet `handleMCQAnswer` still
sends an `ANSWER_RECEIVED` message to the console for it — the claim
that no second `ANSWER_RECEIVED` reaches the console is false. -/
theorem handleMCQAnswer_duplicate_cex :
    recordAnswer gameC4 (some questionC4) "B1" 2 none 2000
      = Except.ok (gameC4, ⟨false, 0, 0, true⟩) ∧
    (handleMCQAnswer gameC4 (some questionC4) "B1" 2 none 2000).1 = gameC4 ∧
    OutMsg.answerReceived "B1" false 0 0
      ∈ (handleMCQAnswer gameC4 (some questionC4) "B1" 2 none 2000).2 := by
  refine ⟨rfl, rfl, ?_⟩
  decide

/-- C4 amended. A duplicate answer returns `{duplicate:true,
isCorrect:false, points:0, responseTime:0}` and mutates no game state,
but `handleMCQAnswer` still emits a (second) `ANSWER_RESULT` to the
buzzer and a (second) `ANSWER_RECEIVED` to the console, both carrying
`isCorrect:false, points:0, responseTime:0`. -/
theorem recordAnswer_duplicate (g : Game) (q : Option Question) (id : String)
    (answer : Int) (ts : Option Timestamps) (now : Int)
    (h : ∃ kv ∈ g.currentQuestionAnswers, kv.1 = id) :
    recordAnswer g q id answer ts now = Except.ok (g, ⟨false, 0, 0, true⟩) ∧
    handleMCQAnswer g q id answer ts now =
      (g, [.answerResult id false 0 0, .answerReceived id false 0 0]) := by
  have hfind : (g.currentQuestionAnswers.find? fun kv => kv.1 == id).isSome := by
    obtain ⟨kv, hmem, hkey⟩ := h
    exact List.find?_isSome.mpr ⟨kv, hmem, by simp [hkey]⟩
  constructor
  · simp [recordAnswer, hfind]
  · simp [handleMCQAnswer, recordAnswer, hfind]

/-- Witness for `recordAnswer_duplicate` at `gameC4`. -/
theorem recordAnswer_duplicate_witness :
    recordAnswer gameC4 (some questionC4) "B1" 3 none 2500
      = Except.ok (gameC4, ⟨false, 0, 0, true⟩) ∧
    handleMCQAnswer gameC4 (some questionC4) "B1" 3 none 2500 =
      (gameC4, [.answerResult "B1" false 0 0, .answerReceived "B1" false 0 0]) :=
  recordAnswer_duplicate gameC4 (some questionC4) "B1" 3 none 2500 (by decide)

/-- First registration step of scenario S4: transport 1 registers
buzzer id `"X"` on an empty registry. -/
def regStep1 : List (String × BuzzerInfo) × WsState × List OutMsg :=
  routeBuzzerRegister [] (freshWs 1) "X" "AA:BB:CC:DD:EE:01" 100

/-- Second registration step of scenario S4: transport 2 registers the
same buzzer id `"X"` and is rejected. -/
def regStep2 : List (String × BuzzerInfo) × WsState × List OutMsg :=
  routeBuzzerRegister regStep1.1 (freshWs 2) "X" "AA:BB:CC:DD:EE:02" 200

/-- Close handling for the rejected transport of scenario S4. -/
def regStep3 : List (String × BuzzerInfo) × List OutMsg :=
  handleDisconnection regStep2.1 regStep2.2.1

/-- C2. Duplicate registration, scenario S4, evaluated on the code:
the first `BUZZER_REGISTER` for `"X"` succeeds with `CONNECTION_ACK`
and `playerNumber` 1, the second receives `CONNECTION_REJECTED` and is
closed with code 4002 and the registry still has size 1 — but because
`routeMessage` stamps `ws._buzzerID` on the second transport before
the duplicate check, handling that transport's close deletes the
FIRST buzzer's registry entry: the registry ends at size 0, not 1,
and a spurious `BUZZER_DISCONNECTED` for `"X"` is announced. -/
theorem duplicateRegistration_close_deletes_original :
    regStep1.2.2 = [.connectionAck "X" 1, .buzzerConnected "X" 1] ∧
    regStep1.1.length = 1 ∧
    regStep2.2.2 = [.connectionRejected "Buzzer ID already connected",
                    .closeFrame 4002 "Duplicate buzzer ID"] ∧
    regStep2.1.length = 1 ∧
    regStep2.2.1.buzzerID = some "X" ∧
    regStep3.1 = [] ∧
    regStep3.2 = [.buzzerDisconnected "X" 0] := by
  refine ⟨?_, rfl, ?_, rfl, rfl, ?_, ?_⟩ <;> decide

/-- One engine operation on a game state: a buzz, a timer evaluation,
a validation or an exclusion (the operations of `game.service.js`
that touch the per-question buzz state). -/
inductive GameStep : Game → Game → Prop where
  | buzz (g : Game) (id : String) (ts : Option Timestamps) (now : Int) :
      GameStep g (recordBuzz g id ts now).1
  | eval (g : Game) : GameStep g (evaluateBuzzes g).1
  | validate (g : Game) (q : Option Question) (id : String) (c : Bool) :
      GameStep g (validateBuzz g q id c).1
  | exclude (g : Game) (id : String) : GameStep g (excludePlayer g id)

/-- Reachability by engine operations. -/
def GameReachable (g0 g : Game) : Prop :=
  Relation.ReflTransGen GameStep g0 g

lemma recordBuzz_lock_winner (g : Game) (id : String) (ts : Option Timestamps) (now : Int) :
    ((recordBuzz g id ts now).1).buzzerLocked = g.buzzerLocked ∧
    ((recordBuzz g id ts now).1).currentQuestionWinner = g.currentQuestionWinner := by
  unfold recordBuzz
  split
  · exact ⟨rfl, rfl⟩
  · split
    · exact ⟨rfl, rfl⟩
    · split
      · exact ⟨rfl, rfl⟩
      · exact ⟨rfl, rfl⟩

lemma evaluateBuzzes_lock_winner (g : Game) :
    (evaluateBuzzes g).1 = g ∨
    (((evaluateBuzzes g).1).buzzerLocked = true ∧
      ((evaluateBuzzes g).1).currentQuestionWinner.isSome = true) := by
  unfold evaluateBuzzes
  split
  · exact Or.inl rfl
  · split
    · exact Or.inl rfl
    · exact Or.inr ⟨rfl, rfl⟩

lemma validateBuzz_lock_winner (g : Game) (q : Option Question) (id : String) (c : Bool) :
    ((validateBuzz g q id c).1).buzzerLocked = g.buzzerLocked ∧
    ((validateBuzz g q id c).1).currentQuestionWinner = g.currentQuestionWinner :=
  ⟨rfl, rfl⟩

lemma excludePlayer_lock_winner (g : Game) (id : String) :
    (excludePlayer g id).buzzerLocked = false ∧
    (excludePlayer g id).currentQuestionWinner = none :=
  ⟨rfl, rfl⟩

/-- The lock-winner invariant is preserved by every engine step. -/
lemma gameStep_preserves_lockInv {g g2 : Game}
    (hstep : GameStep g g2)
    (hinv : g.buzzerLocked = true → g.currentQuestionWinner.isSome = true) :
    g2.buzzerLocked = true → g2.currentQuestionWinner.isSome = true := by
  cases hstep with
  | buzz id ts now =>
      intro hl
      have h := recordBuzz_lock_winner g id ts now
      rw [h.2]
      exact hinv (h.1 ▸ hl)
  | eval =>
      intro hl
      rcases evaluateBuzzes_lock_winner g with h | h
      · rw [h] at hl ⊢
        exact hinv hl
      · exact h.2
  | validate q id c =>
      intro hl
      have h := validateBuzz_lock_winner g q id c
      rw [h.2]
      exact hinv (h.1 ▸ hl)
  | exclude id =>
      intro hl
      have h := excludePlayer_lock_winner g id
      rw [h.1] at hl
      exact absurd hl (by simp)

/-- A locked game rejects every buzz, whatever guard fires first. -/
lemma recordBuzz_rejected_when_locked (g : Game) (id : String)
    (ts : Option Timestamps) (now : Int) (hl : g.buzzerLocked = true) :
    ((recordBuzz g id ts now).2).ignored = true := by
  unfold recordBuzz
  split
  · rfl
  · split
    · rfl
    · simp [hl]

/-- C6 (amended). In every state reachable by engine operations from a
freshly reset question, `buzzerLocked = true` implies a winner is set,
and while locked every `recordBuzz` call is rejected; the only
operation that sets the lock (`evaluateBuzzes`) sets the winner with
it, and `excludePlayer` clears the lock and the winner together.
(`validateBuzz` leaves the lock in place — contrary to the original
claim, it never clears it, for either value of `isCorrect`.) -/
theorem buzzerLocked_reachable_invariant (g0 g : Game) (now0 : Int)
    (hreach : GameReachable (resetQuestionState g0 now0) g) :
    (g.buzzerLocked = true → g.currentQuestionWinner.isSome = true) ∧
    (∀ id ts now, g.buzzerLocked = true →
      ((recordBuzz g id ts now).2).ignored = true) ∧
    (∀ g2, GameStep g g2 → g2.buzzerLocked = true → g.buzzerLocked = false →
      g2.currentQuestionWinner.isSome = true) ∧
    (∀ id, (excludePlayer g id).buzzerLocked = false ∧
      (excludePlayer g id).currentQuestionWinner = none) := by
  refine ⟨?_, ?_, ?_, ?_⟩
  · have hbase : (resetQuestionState g0 now0).buzzerLocked = true →
        (resetQuestionState g0 now0).currentQuestionWinner.isSome = true := by
      intro h
      simp [resetQuestionState] at h
    induction hreach with
    | refl => exact hbase
    | tail _ hstep ih => exact gameStep_preserves_lockInv hstep ih
  · intro id ts now hl
    exact recordBuzz_rejected_when_locked g id ts now hl
  · intro g2 hstep hl2 hl
    cases hstep with
    | buzz id ts now =>
        have h := recordBuzz_lock_winner g id ts now
        rw [h.1] at hl2
        rw [hl2] at hl
        exact absurd hl (by simp)
    | eval =>
        rcases evaluateBuzzes_lock_winner g with h | h
        · rw [h] at hl2
          rw [hl2] at hl
          exact absurd hl (by simp)
        · exact h.2
    | validate q id c =>
        have h := validateBuzz_lock_winner g q id c
        rw [h.1] at hl2
        rw [hl2] at hl
        exact absurd hl (by simp)
    | exclude id =>
        have h := excludePlayer_lock_winner g id
        rw [h.1] at hl2
        exact absurd hl2 (by simp)
  · intro id
    exact excludePlayer_lock_winner g id

/-- Witness for `buzzerLocked_reachable_invariant`: the reset state
followed by one buzz from B1 and the timer evaluation. -/
def gameC6 : Game :=
  (evaluateBuzzes (recordBuzz (resetQuestionState gameS2 1000) "B1" none 1300).1).1

/-- Witness for `buzzerLocked_reachable_invariant` at the concrete
reachable locked state `gameC6`. -/
theorem buzzerLocked_reachable_invariant_witness :
    gameC6.currentQuestionWinner.isSome = true ∧
    ((recordBuzz gameC6 "B2" none 2000).2).ignored = true ∧
    (excludePlayer gameC6 "B1").buzzerLocked = false ∧
    (excludePlayer gameC6 "B1").currentQuestionWinner = none := by
  have h := buzzerLocked_reachable_invariant gameS2 gameC6 1000
    (Relation.ReflTransGen.tail
      (Relation.ReflTransGen.single
        (GameStep.buzz (resetQuestionState gameS2 1000) "B1" none 1300))
      (GameStep.eval (recordBuzz (resetQuestionState gameS2 1000) "B1" none 1300).1))
  exact ⟨h.1 (by decide), h.2.1 "B2" none 2000 (by decide),
    (h.2.2.2 "B1").1, (h.2.2.2 "B1").2⟩

/-- C6 counterexample. In the locked state `gameC6` (winner B1),
`validateBuzz` with `isCorrect = true` does NOT clear the lock: the
game stays locked with its winner still set, refuting the part of the
claim that says a correct validation clears it.  (Only `excludePlayer`
— and the next question reset — clears the lock.) -/
theorem validateBuzz_does_not_clear_lock_cex :
    gameC6.buzzerLocked = true ∧
    gameC6.currentQuestionWinner = some "B1" ∧
    ((validateBuzz gameC6 (some questionC4) "B1" true).1).buzzerLocked = true ∧
    ((validateBuzz gameC6 (some questionC4) "B1" true).1).currentQuestionWinner
      = some "B1" := by
  refine ⟨?_, ?_, ?_, ?_⟩ <;> decide

lemma chunksOf_length (l : List Nat) :
    (chunksOf l).length = (l.length + 4095) / 4096 := by
  induction l using chunksOf.induct with
  | case1 => simp [chunksOf]
  | case2 hd tl ih =>
      rw [chunksOf]
      simp only [List.length_cons, ih, List.length_drop]
      simp only [List.length_cons, CHUNK_SIZE]
      omega

lemma chunksOf_chunk_le (l : List Nat) :
    ∀ c ∈ chunksOf l, c.length ≤ CHUNK_SIZE := by
  induction l using chunksOf.induct with
  | case1 => simp [chunksOf]
  | case2 hd tl ih =>
      rw [chunksOf]
      intro c hc
      rcases List.mem_cons.mp hc with h1 | h1
      · rw [h1]
        simp
      · exact ih c h1


lemma relStep_keeps (r : List String) (seg : String)
    (hr : ∀ x ∈ r, x ≠ "." ∧ x ≠ "") :
    ∀ x ∈ relStep r seg, x ≠ "." ∧ x ≠ "" := by
  intro x hx
  unfold relStep at hx
  split_ifs at hx with h1 h2 h3
  · exact hr x hx
  · rcases List.mem_cons.mp hx with h | h
    · subst h; exact ⟨by decide, by decide⟩
    · exact hr x h
  · exact hr x (List.mem_of_mem_tail hx)
  · rcases List.mem_cons.mp hx with h | h
    · subst h
      push_neg at h1
      exact h1
    · exact hr x h

lemma absStep_relStep (a r : List String) (seg : String)
    (hr : ∀ x ∈ r, x ≠ "." ∧ x ≠ "") :
    ((relStep r seg).reverse).foldl absStep a
      = absStep (r.reverse.foldl absStep a) seg := by
  by_cases h1 : seg = "." ∨ seg = ""
  · rw [relStep, if_pos h1]
    conv_rhs => rw [absStep, if_pos h1]
  · by_cases h2 : seg = ".."
    · by_cases h3 : r.head? = some ".." ∨ r = []
      · rw [relStep, if_neg h1, if_pos h2, if_pos h3, List.reverse_cons,
          List.foldl_append, List.foldl_cons, List.foldl_nil, h2]
      · push_neg at h3
        obtain ⟨top, rest, hrshape⟩ : ∃ top rest, r = top :: rest := by
          cases r with
          | nil => exact absurd rfl h3.2
          | cons t rs => exact ⟨t, rs, rfl⟩
        subst hrshape
        have htop : top ≠ ".." := by
          intro hc
          exact h3.1 (by rw [hc]; rfl)
        have htop2 := hr top (List.mem_cons_self top rest)
        have hcond : ¬((top :: rest).head? = some ".." ∨ top :: rest = ([] : List String)) := by
          simp [htop]
        rw [relStep, if_neg h1, if_pos h2, if_neg hcond, List.tail_cons,
          List.reverse_cons, List.foldl_append, List.foldl_cons, List.foldl_nil]
        have hpush : absStep (rest.reverse.foldl absStep a) top
            = top :: rest.reverse.foldl absStep a := by
          rw [absStep, if_neg (by push_neg; exact htop2), if_neg htop]
        rw [hpush, absStep, if_neg h1, if_pos h2, List.tail_cons]
    · rw [relStep, if_neg h1, if_neg h2, List.reverse_cons, List.foldl_append,
        List.foldl_cons, List.foldl_nil]

lemma foldl_rel_abs (s : List String) : ∀ (r a : List String),
    (∀ x ∈ r, x ≠ "." ∧ x ≠ "") →
    ((s.foldl relStep r).reverse).foldl absStep a
      = s.foldl absStep (r.reverse.foldl absStep a) := by
  induction s with
  | nil => intro r a hr; rfl
  | cons seg s ih =>
      intro r a hr
      simp only [List.foldl_cons]
      rw [ih (relStep r seg) a (relStep_keeps r seg hr), absStep_relStep a r seg hr]

lemma normalizeAbs_append_normalizeRel (cwd segs : List String) :
    normalizeAbsSegs (cwd ++ normalizeRelSegs segs) = normalizeAbsSegs (cwd ++ segs) := by
  unfold normalizeAbsSegs normalizeRelSegs
  rw [List.foldl_append, List.foldl_append]
  congr 1
  have h := foldl_rel_abs segs [] (cwd.foldl absStep []) (by intro x hx; simp at hx)
  simpa using h

/-- The jingle path guard can never fire: for an absolute stored path
its first conjunct is false, and for a relative one `path.resolve` of
the raw path and of its `path.normalize` coincide. -/
lemma jinglePathGuard_false (cwd : List String) (p : JsPath) :
    jinglePathGuard cwd p = false := by
  unfold jinglePathGuard pathResolve pathNormalize
  by_cases hab : p.absolute
  · simp [hab]
  · simp [hab, normalizeAbs_append_normalizeRel]

/-- A jingle row whose stored path is relative and escapes the jingle
directory through a leading `..` segment. -/
def jingleTraversal : Jingle := ⟨"hack", ⟨false, ["..", "secret.mp3"]⟩⟩

/-- The working directory used in the traversal scenario. -/
def cwdJingles : List String := ["srv", "quizbuzzer", "jingles"]

/-- C8, evaluated on the code. The path-traversal guard of
`handleJinglePlay` compares `path.resolve(file_path)` with
`path.resolve(path.normalize(file_path))`, which are equal for every
path, so the guard never fires: for the stored relative path
`../secret.mp3` the handler does NOT reject with `Invalid file path`
but falls through to the file-existence check (`File not found` here),
contrary to the claim. -/
theorem jinglePathGuard_never_rejects :
    (∀ cwd p, jinglePathGuard cwd p = false) ∧
    jinglePathGuard cwdJingles jingleTraversal.file_path = false ∧
    handleJinglePlay [] true (some jingleTraversal) none cwdJingles "B1" 7
      = ([], [.jingleError "B1" 7 "File not found"]) := by
  refine ⟨jinglePathGuard_false, jinglePathGuard_false cwdJingles jingleTraversal.file_path, ?_⟩
  decide

/-- C7. For a jingle file streamed to a connected buzzer the stream
consists of exactly `⌈N/4096⌉` binary frames; the frame at position
`i` carries chunk index `i` (strictly sequential from 0), an 8-byte
header of the little-endian `jingleId` followed by the little-endian
chunk index, and at most 4096 payload bytes; the terminating
`JINGLE_END` reports `totalChunks = ⌈N/4096⌉`; and a `JINGLE_PLAY`
for a buzzer already in `activeJingleStreams` is rejected with a
`JINGLE_ERROR` (already playing) without starting any stream. -/
theorem jingleStreaming_correct (jid : Nat) (bytes : List Nat) (active : List String)
    (j : Jingle) (cwd : List String) (id : String) :
    ((jingleFrames jid bytes).length = (bytes.length + 4095) / 4096) ∧
    (∀ i (h : i < (jingleFrames jid bytes).length),
      ∃ payload, (jingleFrames jid bytes).get ⟨i, h⟩ = jinglePacket jid i payload ∧
        payload.length ≤ CHUNK_SIZE) ∧
    (id ∉ active →
      handleJinglePlay active true (some j) (some bytes) cwd id jid
        = (active,
            [.jingleStart id jid bytes.length, .jingleStarted id jid bytes.length]
            ++ (jingleFrames jid bytes).map (.binaryFrame id ·)
            ++ [.jingleEnd id jid ((bytes.length + 4095) / 4096) bytes.length,
                .jingleCompleted id jid ((bytes.length + 4095) / 4096)])) ∧
    (id ∈ active →
      handleJinglePlay active true (some j) (some bytes) cwd id jid
        = (active, [.jingleError id jid "Buzzer is already playing a jingle"])) := by
  have hlen : (jingleFrames jid bytes).length = (bytes.length + 4095) / 4096 := by
    simp [jingleFrames, chunksOf_length]
  refine ⟨hlen, ?_, ?_, ?_⟩
  · intro i h
    have h2 : i < (chunksOf bytes).length := by
      simpa [jingleFrames] using h
    refine ⟨(chunksOf bytes).get ⟨i, h2⟩, ?_, ?_⟩
    · simp [jingleFrames, List.get_eq_getElem, List.getElem_map, List.getElem_enum]
    · exact chunksOf_chunk_le bytes _ (List.get_mem _ _ h2)
  · intro h
    simp [handleJinglePlay, h, jinglePathGuard_false, hlen]
  · intro h
    simp [handleJinglePlay, h]

/-- Ordinary jingle row used in the streaming witness. -/
def jingleS5 : Jingle := ⟨"intro", ⟨true, ["srv", "media", "intro.mp3"]⟩⟩

/-- Witness for `jingleStreaming_correct`: a 5-byte file streams as a
single frame followed by `JINGLE_END` with `totalChunks = 1`. -/
theorem jingleStreaming_correct_witness :
    handleJinglePlay [] true (some jingleS5) (some (List.range 5)) ["srv"] "B1" 7
      = ([], [.jingleStart "B1" 7 5, .jingleStarted "B1" 7 5]
          ++ (jingleFrames 7 (List.range 5)).map (.binaryFrame "B1" ·)
          ++ [.jingleEnd "B1" 7 1 5, .jingleCompleted "B1" 7 1]) := by
  have h := (jingleStreaming_correct 7 (List.range 5) [] jingleS5 ["srv"] "B1").2.2.1
    (by decide)
  rw [h]
  norm_num
